import Mathlib

/-!
Verification of the flight-log download workflow of `ovshell_fileman/downloader.py`:
the `DownloadFilter` dataclass and its dict (de)serialization, the `Downloader`
listing/copying logic, and the `AutomountWatcher` polling state machine.

Python dynamic values stored in settings mappings are modelled by `PyVal`;
the filesystem seen by `Downloader.download` is modelled by `FS` (paths are
component lists, so `os.path.join(a, b)` is `a ++ [b]`); the directory
scan feeding `Downloader.list_logs` is modelled by an `Option (List Entry)`
(`Option.none` meaning the source directory does not exist, mirroring the
`os.path.exists` guard).
-/

/-- A dynamically-typed Python value as it can appear in a persisted settings
mapping: a bool, an int, a string, or None. -/
inductive PyVal where
  | pybool (b : Bool)
  | pyint (n : Int)
  | pystr (s : String)
  | pynone
deriving DecidableEq, Repr

/-- The result of `DownloadFilter.fromdict`: a `DownloadFilter` instance whose
fields, being plain Python attributes, can hold any value that was stored in
the mapping (the dataclass annotations are not enforced at runtime). -/
structure PyDownloadFilter where
  new : PyVal
  igc : PyVal
  nmea : PyVal
deriving DecidableEq, Repr

/-- A Python dict of string keys and dynamic values (keys unique in a real dict;
lookup returns the first binding). -/
abbrev PyDict := List (String × PyVal)

/-- Membership test `k in state` on a Python dict. -/
def dictContains (d : PyDict) (k : String) : Bool :=
  d.any (fun kv => kv.1 == k)

/-- Subscript access `state[k]` on a Python dict; only used under a
`dictContains` guard, as in the source. -/
def dictGet (d : PyDict) (k : String) : PyVal :=
  (d.lookup k).getD PyVal.pynone

/-- `DownloadFilter.fromdict`: start from the dataclass defaults
`(new=True, igc=True, nmea=False)` and overwrite each field whose key is
present in the mapping with the mapping value, verbatim. -/
def DownloadFilter.fromdict (state : PyDict) : PyDownloadFilter :=
  let filt0 : PyDownloadFilter :=
    ⟨PyVal.pybool true, PyVal.pybool true, PyVal.pybool false⟩
  let filt1 :=
    if dictContains state "new" then { filt0 with new := dictGet state "new" } else filt0
  let filt2 :=
    if dictContains state "igc" then { filt1 with igc := dictGet state "igc" } else filt1
  if dictContains state "nmea" then { filt2 with nmea := dictGet state "nmea" } else filt2

/-- The `DownloadFilter` dataclass in its intended, well-typed reading: three
boolean fields with defaults `new=True, igc=True, nmea=False`. -/
structure DownloadFilter where
  new : Bool
  igc : Bool
  nmea : Bool
deriving DecidableEq, Repr

/-- `DownloadFilter.asdict`: `dataclasses.asdict` serializes the three fields,
in declaration order, as a mapping of booleans. -/
def DownloadFilter.asdict (f : DownloadFilter) : PyDict :=
  [("new", PyVal.pybool f.new), ("igc", PyVal.pybool f.igc), ("nmea", PyVal.pybool f.nmea)]

/-- The injection of a well-typed filter into the dynamically-typed field
representation; two Python `DownloadFilter` instances are `==` iff their fields
are, so `f.toPy` is the image of `f` in the dynamic world. -/
def DownloadFilter.toPy (f : DownloadFilter) : PyDownloadFilter :=
  ⟨PyVal.pybool f.new, PyVal.pybool f.igc, PyVal.pybool f.nmea⟩

/-- C6 (amended): `fromdict` is total — it never fails on any mapping. A field
whose key is missing keeps its default (`new=True, igc=True, nmea=False`),
keys other than the three recognized ones are ignored (the result depends on
nothing else), and a field whose key is present takes the mapping value
verbatim — even a malformed, non-boolean one — rather than the default. -/
theorem fromdict_total_defaults_verbatim (state : PyDict) :
    DownloadFilter.fromdict state =
      ⟨if dictContains state "new" then dictGet state "new" else PyVal.pybool true,
       if dictContains state "igc" then dictGet state "igc" else PyVal.pybool true,
       if dictContains state "nmea" then dictGet state "nmea" else PyVal.pybool false⟩ := by
  cases h1 : dictContains state "new" <;>
    cases h2 : dictContains state "igc" <;>
      cases h3 : dictContains state "nmea" <;>
        simp [DownloadFilter.fromdict, h1, h2, h3]

/-- A directory entry as produced by `os.scandir`: name, `stat().st_size` and
`stat().st_mtime` (the timestamp is only ever compared, so it is modelled as an
integer). -/
structure Entry where
  name : String
  size : Nat
  mtime : Int
deriving DecidableEq, Repr

/-- The `FileInfo` dataclass. -/
structure FileInfo where
  name : String
  ftype : String
  size : Nat
  mtime : Int
  downloaded : Bool
deriving DecidableEq, Repr

/-- ASCII case folding of one character, as `str.lower` does on the ASCII
file names involved here. -/
def pyCharLower (c : Char) : Char :=
  if 65 ≤ c.toNat ∧ c.toNat ≤ 90 then Char.ofNat (c.toNat + 32) else c

/-- `entry.name.lower()`. -/
def pyLower (s : String) : String :=
  String.mk (s.toList.map pyCharLower)

/-- Index of the last dot of a character list, if any. -/
def lastDotIdx (cs : List Char) : Option Nat :=
  match cs.reverse.findIdx? (fun c => c == '.') with
  | Option.none => Option.none
  | Option.some j => Option.some (cs.length - 1 - j)

/-- The extension component of `os.path.splitext` for a plain file name (no
separators): everything from the last dot on, unless every character before
that dot is itself a dot (so ".igc" has no extension). -/
def splitextExt (s : String) : String :=
  match lastDotIdx s.toList with
  | Option.none => ""
  | Option.some i =>
      if (s.toList.take i).any (fun c => c != '.') then
        String.mk (s.toList.drop i)
      else ""

/-- `os.path.splitext(entry.name.lower())` as used in `list_logs`. -/
def extOf (name : String) : String :=
  splitextExt (pyLower name)

/-- The `FileInfo` that `list_logs` builds for a directory entry: note
`downloaded=False` unconditionally. -/
def mkFileInfo (entry : Entry) : FileInfo :=
  ⟨entry.name, extOf entry.name, entry.size, entry.mtime, false⟩

/-- The `Downloader` object: a source directory, a mount directory and the
filter it was constructed with. -/
structure Downloader where
  source_dir : List String
  mount_dir : List String
  filter : DownloadFilter

/-- `Downloader._matches`: membership of the file type in the list
`[".nmea" if filter.nmea else None, ".igc" if filter.igc else None]`,
and, when `filter.new` is set, the conjunct `not fileinfo.downloaded`. -/
def Downloader.pmatches (self : Downloader) (fileinfo : FileInfo)
    (filter : DownloadFilter) : Bool :=
  let ftypes : List (Option String) :=
    [if filter.nmea then Option.some ".nmea" else Option.none,
     if filter.igc then Option.some ".igc" else Option.none]
  let matched := ftypes.contains (Option.some fileinfo.ftype)
  if filter.new then matched && !fileinfo.downloaded else matched

/-- Stable insertion (ties keep the incumbent first) used to model Python
`sorted(res, key=lambda fi: fi.mtime, reverse=True)`: an element is placed
before the first list element whose mtime is not larger. -/
def insertMtimeDesc (x : FileInfo) : List FileInfo → List FileInfo
  | [] => [x]
  | y :: ys => if y.mtime ≤ x.mtime then x :: y :: ys else y :: insertMtimeDesc x ys

/-- Python `sorted(res, key=lambda fi: fi.mtime, reverse=True)`: a stable sort,
descending by mtime (extensionally, any stable sort computes the same list). -/
def pySortedMtimeDesc : List FileInfo → List FileInfo
  | [] => []
  | x :: xs => insertMtimeDesc x (pySortedMtimeDesc xs)

/-- `Downloader.list_logs`: returns `[]` when the source directory does not
exist (`scan = Option.none`); otherwise builds a `FileInfo` per entry, keeps
those that match — calling `self._matches(fileinfo, self.filter)`, i.e. the
STORED filter, not the `filter` argument — and sorts descending by mtime. -/
def Downloader.list_logs (self : Downloader) (filter : DownloadFilter)
    (scan : Option (List Entry)) : List FileInfo :=
  match scan with
  | Option.none => []
  | Option.some entries =>
      let res := (entries.map mkFileInfo).filter
        (fun fileinfo => self.pmatches fileinfo self.filter)
      pySortedMtimeDesc res

/-- The matching rule as the spec words it: the extension is ".igc" when
`filter.igc` is set, or ".nmea" when `filter.nmea` is set; and when
`filter.new` is set the file must not be marked already downloaded. -/
def specMatches (fi : FileInfo) (f : DownloadFilter) : Bool :=
  ((f.igc && fi.ftype == ".igc") || (f.nmea && fi.ftype == ".nmea"))
    && (!f.new || !fi.downloaded)

lemma string_beq_eq_decideEq (s t : String) : (s == t) = decide (s = t) := by
  by_cases h : s = t <;> simp [h]

lemma pmatches_eq_spec (self : Downloader) (fi : FileInfo) (f : DownloadFilter) :
    self.pmatches fi f = specMatches fi f := by
  cases f with
  | mk fnew figc fnmea =>
    cases fnew <;> cases figc <;> cases fnmea <;> cases hd : fi.downloaded <;>
      simp [Downloader.pmatches, specMatches, hd, Bool.or_comm, string_beq_eq_decideEq]

lemma insertMtimeDesc_perm (x : FileInfo) (l : List FileInfo) :
    (insertMtimeDesc x l).Perm (x :: l) := by
  induction l with
  | nil => exact List.Perm.refl _
  | cons y ys ih =>
    by_cases h : y.mtime ≤ x.mtime
    · simp [insertMtimeDesc, h]
    · simp only [insertMtimeDesc, if_neg h]
      exact (ih.cons y).trans (List.Perm.swap x y ys)

lemma pySortedMtimeDesc_perm (l : List FileInfo) :
    (pySortedMtimeDesc l).Perm l := by
  induction l with
  | nil => exact List.Perm.refl _
  | cons x xs ih =>
    exact (insertMtimeDesc_perm x (pySortedMtimeDesc xs)).trans (ih.cons x)

lemma insertMtimeDesc_pairwise (x : FileInfo) (l : List FileInfo)
    (h : l.Pairwise (fun a b => b.mtime ≤ a.mtime)) :
    (insertMtimeDesc x l).Pairwise (fun a b => b.mtime ≤ a.mtime) := by
  induction l with
  | nil => simp [insertMtimeDesc]
  | cons y ys ih =>
    rcases List.pairwise_cons.mp h with ⟨hy, hys⟩
    by_cases hle : y.mtime ≤ x.mtime
    · simp only [insertMtimeDesc, if_pos hle]
      refine List.pairwise_cons.mpr ⟨?_, h⟩
      intro z hz
      rcases List.mem_cons.mp hz with rfl | hz2
      · exact hle
      · exact le_trans (hy z hz2) hle
    · simp only [insertMtimeDesc, if_neg hle]
      refine List.pairwise_cons.mpr ⟨?_, ih hys⟩
      intro z hz
      rcases List.mem_cons.mp ((insertMtimeDesc_perm x ys).mem_iff.mp hz) with rfl | hz2
      · exact le_of_lt (not_le.mp hle)
      · exact hy z hz2

lemma pySortedMtimeDesc_pairwise (l : List FileInfo) :
    (pySortedMtimeDesc l).Pairwise (fun a b => b.mtime ≤ a.mtime) := by
  induction l with
  | nil => simp [pySortedMtimeDesc]
  | cons x xs ih => exact insertMtimeDesc_pairwise x (pySortedMtimeDesc xs) ih

lemma mkFileInfo_downloaded (entry : Entry) : (mkFileInfo entry).downloaded = false := rfl

/-- C1: for an existing source directory, `list_logs` returns exactly (as a
permutation of) the entries whose lowercased extension matches the configured
extensions of the effective filter (excluding already-downloaded entries when
`new` is set), and the result is pairwise descending by modification time. -/
theorem list_logs_matches_and_sorted (self : Downloader) (filter : DownloadFilter)
    (entries : List Entry) :
    (self.list_logs filter (Option.some entries)).Perm
        ((entries.map mkFileInfo).filter (fun fi => specMatches fi self.filter))
      ∧ (self.list_logs filter (Option.some entries)).Pairwise
          (fun a b => b.mtime ≤ a.mtime) := by
  constructor
  · have heq : (entries.map mkFileInfo).filter (fun fi => self.pmatches fi self.filter)
        = (entries.map mkFileInfo).filter (fun fi => specMatches fi self.filter) :=
      List.filter_congr (fun x _ => pmatches_eq_spec self x self.filter)
    simpa only [Downloader.list_logs, heq] using
      pySortedMtimeDesc_perm
        ((entries.map mkFileInfo).filter (fun fi => specMatches fi self.filter))
  · simpa only [Downloader.list_logs] using
      pySortedMtimeDesc_pairwise
        ((entries.map mkFileInfo).filter (fun fi => self.pmatches fi self.filter))

/-- C8: when the source directory does not exist, `list_logs` returns the empty
sequence for every filter, raising no error. -/
theorem list_logs_missing_source (self : Downloader) (filter : DownloadFilter) :
    self.list_logs filter Option.none = [] := rfl

/-- C4: `list_logs` IGNORES its `filter` argument and filters with the stored
`self.filter` instead: with stored filter `(new=False, igc=False, nmea=True)`
and argument filter `(new=False, igc=True, nmea=False)`, the entry `a.igc`
matches the argument filter under the matching rule, yet the result is empty. -/
theorem list_logs_ignores_filter_argument :
    (Downloader.mk ["home", "logs"] ["usb"]
        (DownloadFilter.mk false false true)).list_logs
        (DownloadFilter.mk false true false)
        (Option.some [Entry.mk "a.igc" 10 100]) = []
      ∧ specMatches (mkFileInfo (Entry.mk "a.igc" 10 100))
          (DownloadFilter.mk false true false) = true := by
  exact ⟨rfl, rfl⟩

/-- C5: every `FileInfo` produced by `list_logs` carries `downloaded = false`,
and consequently the result does not depend on the `new` field of the stored
(effective) filter. -/
theorem list_logs_downloaded_false_and_new_irrelevant (self : Downloader)
    (filter : DownloadFilter) (scan : Option (List Entry)) :
    (∀ fi ∈ self.list_logs filter scan, fi.downloaded = false) ∧
      ({ self with filter := { self.filter with new := true } }).list_logs filter scan
        = ({ self with filter := { self.filter with new := false } }).list_logs filter scan := by
  constructor
  · intro fi hfi
    cases scan with
    | none => simp [Downloader.list_logs] at hfi
    | some entries =>
      simp only [Downloader.list_logs] at hfi
      have hmem := (pySortedMtimeDesc_perm _).mem_iff.mp hfi
      have hmem2 := List.mem_of_mem_filter hmem
      rcases List.mem_map.mp hmem2 with ⟨entry, _, rfl⟩
      exact mkFileInfo_downloaded entry
  · cases scan with
    | none => rfl
    | some entries =>
      simp only [Downloader.list_logs]
      have heq : (entries.map mkFileInfo).filter
            (fun fi => Downloader.pmatches
              { self with filter := { self.filter with new := true } } fi
              { self.filter with new := true })
          = (entries.map mkFileInfo).filter
            (fun fi => Downloader.pmatches
              { self with filter := { self.filter with new := false } } fi
              { self.filter with new := false }) := by
        apply List.filter_congr
        intro x hx
        rcases List.mem_map.mp hx with ⟨entry, _, rfl⟩
        simp [Downloader.pmatches, mkFileInfo_downloaded]
      simpa using congrArg pySortedMtimeDesc heq

/-- A filesystem path, as the list of its components; `os.path.join(a, b)` for
a single component `b` is `a ++ [b]`. -/
abbrev FsPath := List String

/-- The fragment of the filesystem state that `Downloader.download` touches:
the set of existing directories and the contents (as byte lists) of the
existing regular files. -/
structure FS where
  dirs : List FsPath
  files : List (FsPath × List Nat)

/-- Contents of the regular file at `p`, if it exists. -/
def FS.lookupFile (fs : FS) (p : FsPath) : Option (List Nat) :=
  fs.files.lookup p

/-- `os.path.exists(p)`: `p` is an existing directory or an existing file. -/
def FS.pathExists (fs : FS) (p : FsPath) : Bool :=
  fs.dirs.contains p || (fs.lookupFile p).isSome

/-- `os.makedirs(p, exist_ok=True)` for a path whose parent already exists:
creates the directory, with no error and no change if it is already there. -/
def FS.makedirs (fs : FS) (p : FsPath) : FS :=
  if fs.dirs.contains p then fs else ⟨p :: fs.dirs, fs.files⟩

/-- Writing `bytes` to the file at `p`, creating or overwriting it. -/
def FS.setFile (fs : FS) (p : FsPath) (bytes : List Nat) : FS :=
  ⟨fs.dirs, (p, bytes) :: fs.files⟩

/-- `Downloader._get_dest_dir`: `os.path.join(self.mount_dir, "logs")`. -/
def Downloader.get_dest_dir (self : Downloader) : FsPath :=
  self.mount_dir ++ ["logs"]

/-- `Downloader._ensure_dest_dir`: asserts that the mount directory exists
(raising `AssertionError` otherwise), then creates `<mount_dir>/logs` with
`exist_ok=True` and returns it. -/
def Downloader.ensure_dest_dir (self : Downloader) (fs : FS) :
    Except String (FS × FsPath) :=
  if fs.pathExists self.mount_dir then
    Except.ok (fs.makedirs self.get_dest_dir, self.get_dest_dir)
  else Except.error "AssertionError"

/-- `Downloader.download`: ensure the destination directory, then
`shutil.copy(os.path.join(self.source_dir, file.name), destdir)`, which copies
the source bytes to `destdir/<file.name>` (overwriting), or raises an I/O
error when the source file does not exist. The returned pair is the filesystem
after the call together with the raised exception, if any. -/
def Downloader.download (self : Downloader) (fs : FS) (file : FileInfo) :
    FS × Option String :=
  match self.ensure_dest_dir fs with
  | Except.error e => (fs, Option.some e)
  | Except.ok (fs1, destdir) =>
      match fs1.lookupFile (self.source_dir ++ [file.name]) with
      | Option.none => (fs1, Option.some "FileNotFoundError")
      | Option.some bytes => (fs1.setFile (destdir ++ [file.name]) bytes, Option.none)

lemma makedirs_files (fs : FS) (p : FsPath) : (fs.makedirs p).files = fs.files := by
  unfold FS.makedirs
  split <;> rfl

lemma makedirs_contains_self (fs : FS) (p : FsPath) :
    ((fs.makedirs p).dirs.contains p) = true := by
  unfold FS.makedirs
  split
  · assumption
  · simp

lemma makedirs_contains_ne (fs : FS) (p q : FsPath) (h : q ≠ p) :
    ((fs.makedirs p).dirs.contains q) = fs.dirs.contains q := by
  unfold FS.makedirs
  split
  · rfl
  · have hbeq : (q == p) = false := beq_eq_false_iff_ne.mpr h
    simp [hbeq, h]

lemma lookup_setFile_self (fs : FS) (p : FsPath) (b : List Nat) :
    (fs.setFile p b).lookupFile p = Option.some b := by
  simp [FS.setFile, FS.lookupFile, List.lookup]

lemma lookup_setFile_ne (fs : FS) (p : FsPath) (b : List Nat) (q : FsPath)
    (h : q ≠ p) : (fs.setFile p b).lookupFile q = fs.lookupFile q := by
  have hbeq : (q == p) = false := beq_eq_false_iff_ne.mpr h
  simp [FS.setFile, FS.lookupFile, List.lookup, hbeq]

/-- C3: when the mount directory exists and the source file has contents
`bytes`, `download` completes without error, the destination directory
`<mount_dir>/logs` exists afterwards (created idempotently, whether or not it
existed before), and the file `<mount_dir>/logs/<file.name>` afterwards holds
exactly `bytes`, overwriting whatever file was previously at that path. -/
theorem download_copies (self : Downloader) (fs : FS) (file : FileInfo)
    (bytes : List Nat)
    (hm : fs.pathExists self.mount_dir = true)
    (hs : fs.lookupFile (self.source_dir ++ [file.name]) = Option.some bytes) :
    (self.download fs file).2 = Option.none
      ∧ ((self.download fs file).1.dirs.contains (self.mount_dir ++ ["logs"])) = true
      ∧ (self.download fs file).1.lookupFile (self.mount_dir ++ ["logs", file.name])
          = Option.some bytes := by
  have hs1 : (fs.makedirs self.get_dest_dir).lookupFile
      (self.source_dir ++ [file.name]) = Option.some bytes := by
    simpa only [FS.lookupFile, makedirs_files] using hs
  simp only [Downloader.download, Downloader.ensure_dest_dir, hm, if_true, hs1]
  refine ⟨trivial, ?_, ?_⟩
  · simpa only [FS.setFile] using makedirs_contains_self fs self.get_dest_dir
  · have := lookup_setFile_self (fs.makedirs self.get_dest_dir)
      (self.get_dest_dir ++ [file.name]) bytes
    simpa only [Downloader.get_dest_dir, List.append_assoc, List.cons_append,
      List.nil_append] using this

/-- Witness for `download_copies` at a concrete filesystem where the
destination directory and a stale destination file already exist. -/
theorem download_copies_witness :
    (FS.pathExists ⟨[["usb"], ["usb", "logs"]],
        [(["home", "logs", "a.igc"], [1, 2]), (["usb", "logs", "a.igc"], [9])]⟩
      (Downloader.mk ["home", "logs"] ["usb"] (DownloadFilter.mk true true false)).mount_dir
      = true)
    ∧ ((Downloader.mk ["home", "logs"] ["usb"] (DownloadFilter.mk true true false)).download
        ⟨[["usb"], ["usb", "logs"]],
          [(["home", "logs", "a.igc"], [1, 2]), (["usb", "logs", "a.igc"], [9])]⟩
        (mkFileInfo (Entry.mk "a.igc" 2 100))).1.lookupFile
        (["usb"] ++ ["logs", "a.igc"]) = Option.some [1, 2] := by
  refine ⟨by decide, ?_⟩
  exact (download_copies
    (Downloader.mk ["home", "logs"] ["usb"] (DownloadFilter.mk true true false))
    ⟨[["usb"], ["usb", "logs"]],
      [(["home", "logs", "a.igc"], [1, 2]), (["usb", "logs", "a.igc"], [9])]⟩
    (mkFileInfo (Entry.mk "a.igc" 2 100)) [1, 2] (by decide) (by decide)).2.2

/-- C9: when the mount directory does not exist, `download` raises
`AssertionError` before touching anything: the filesystem is returned
unchanged, so no destination directory is created and no file is copied. -/
theorem download_unmounted_asserts (self : Downloader) (fs : FS) (file : FileInfo)
    (hm : fs.pathExists self.mount_dir = false) :
    self.download fs file = (fs, Option.some "AssertionError") := by
  simp [Downloader.download, Downloader.ensure_dest_dir, hm]

/-- Witness for `download_unmounted_asserts` at a concrete filesystem with no
mount directory. -/
theorem download_unmounted_asserts_witness :
    (FS.pathExists ⟨[["home", "logs"]], [(["home", "logs", "a.igc"], [1])]⟩
        (Downloader.mk ["home", "logs"] ["usb"] (DownloadFilter.mk true true false)).mount_dir
      = false)
    ∧ (Downloader.mk ["home", "logs"] ["usb"] (DownloadFilter.mk true true false)).download
        ⟨[["home", "logs"]], [(["home", "logs", "a.igc"], [1])]⟩
        (mkFileInfo (Entry.mk "a.igc" 1 100))
      = (⟨[["home", "logs"]], [(["home", "logs", "a.igc"], [1])]⟩, Option.some "AssertionError") := by
  refine ⟨by decide, ?_⟩
  exact download_unmounted_asserts
    (Downloader.mk ["home", "logs"] ["usb"] (DownloadFilter.mk true true false))
    ⟨[["home", "logs"]], [(["home", "logs", "a.igc"], [1])]⟩
    (mkFileInfo (Entry.mk "a.igc" 1 100)) (by decide)

/-- C10: under the mount precondition, `download` never modifies the source:
the membership of every directory other than `<mount_dir>/logs` is unchanged,
the contents of every file other than `<mount_dir>/logs/<file.name>` are
unchanged, and in particular the source file `<source_dir>/<file.name>` reads
the same before and after (also when source and destination coincide). -/
theorem download_frame (self : Downloader) (fs : FS) (file : FileInfo)
    (hm : fs.pathExists self.mount_dir = true) :
    (∀ p : FsPath, p ≠ self.mount_dir ++ ["logs"] →
        ((self.download fs file).1.dirs.contains p) = fs.dirs.contains p)
      ∧ (∀ q : FsPath, q ≠ self.mount_dir ++ ["logs", file.name] →
          (self.download fs file).1.lookupFile q = fs.lookupFile q)
      ∧ (self.download fs file).1.lookupFile (self.source_dir ++ [file.name])
          = fs.lookupFile (self.source_dir ++ [file.name]) := by
  simp only [Downloader.download, Downloader.ensure_dest_dir, hm, if_true]
  cases hlk : (fs.makedirs self.get_dest_dir).lookupFile
      (self.source_dir ++ [file.name]) with
  | none =>
    simp only [hlk]
    refine ⟨?_, ?_, ?_⟩
    · intro p hp
      exact makedirs_contains_ne fs self.get_dest_dir p hp
    · intro q hq
      simp only [FS.lookupFile, makedirs_files]
    · have hfs : fs.lookupFile (self.source_dir ++ [file.name]) = Option.none := by
        simpa only [FS.lookupFile, makedirs_files] using hlk
      exact hfs.symm
  | some bytes =>
    simp only [hlk]
    refine ⟨?_, ?_, ?_⟩
    · intro p hp
      simpa only [FS.setFile] using makedirs_contains_ne fs self.get_dest_dir p hp
    · intro q hq
      have hq2 : q ≠ self.get_dest_dir ++ [file.name] := by
        simpa only [Downloader.get_dest_dir, List.append_assoc, List.cons_append,
          List.nil_append] using hq
      rw [lookup_setFile_ne _ _ _ _ hq2]
      simp only [FS.lookupFile, makedirs_files]
    · by_cases hsq : self.source_dir ++ [file.name] = self.get_dest_dir ++ [file.name]
      · rw [hsq, lookup_setFile_self]
        rw [hsq] at hlk
        have hfs : fs.lookupFile (self.get_dest_dir ++ [file.name]) = Option.some bytes := by
          simpa only [FS.lookupFile, makedirs_files] using hlk
        exact hfs.symm
      · rw [lookup_setFile_ne _ _ _ _ hsq]
        simp only [FS.lookupFile, makedirs_files]

/-- Witness for `download_frame`: a concrete download leaves the source file
unchanged. -/
theorem download_frame_witness :
    (FS.pathExists ⟨[["usb"]], [(["home", "logs", "a.igc"], [5])]⟩
        (Downloader.mk ["home", "logs"] ["usb"] (DownloadFilter.mk true true false)).mount_dir
      = true)
    ∧ ((Downloader.mk ["home", "logs"] ["usb"] (DownloadFilter.mk true true false)).download
        ⟨[["usb"]], [(["home", "logs", "a.igc"], [5])]⟩
        (mkFileInfo (Entry.mk "a.igc" 1 100))).1.lookupFile (["home", "logs"] ++ ["a.igc"])
      = FS.lookupFile ⟨[["usb"]], [(["home", "logs", "a.igc"], [5])]⟩
          (["home", "logs"] ++ ["a.igc"]) := by
  refine ⟨by decide, ?_⟩
  exact (download_frame
    (Downloader.mk ["home", "logs"] ["usb"] (DownloadFilter.mk true true false))
    ⟨[["usb"]], [(["home", "logs", "a.igc"], [5])]⟩
    (mkFileInfo (Entry.mk "a.igc" 1 100)) (by decide)).2.2

/-- The `AutomountWatcher`: the registered mount and unmount handlers
(identified by arbitrary tags), in registration order, as appended by
`on_mount` and `on_unmount`. -/
structure AutomountWatcher where
  mount_handlers : List Nat
  unmount_handlers : List Nat

/-- One iteration of the `AutomountWatcher.run` loop body: check
`os.path.exists(self._mountpoint)` (here the observation `ex`), call
`_handle_mount` — which invokes every mount handler in registration order —
when present and not previously `mounted`, call `_handle_unmount` when absent
and previously `mounted`, and set `mounted` to the observation. Returns the
new `mounted` flag and the handlers invoked, in invocation order. -/
def AutomountWatcher.step (self : AutomountWatcher) (mounted : Bool) (ex : Bool) :
    Bool × List Nat :=
  if ex then (true, if mounted then [] else self.mount_handlers)
  else (false, if mounted then self.unmount_handlers else [])

/-- The polling loop from state `mounted` over a finite trace of existence
observations; yields the handlers fired at each step. -/
def AutomountWatcher.runFrom (self : AutomountWatcher) (mounted : Bool) :
    List Bool → List (List Nat)
  | [] => []
  | ex :: rest =>
      (self.step mounted ex).2 :: self.runFrom (self.step mounted ex).1 rest

/-- `AutomountWatcher.run`: the loop body over the observation trace, starting
from `mounted = False`. -/
def AutomountWatcher.run (self : AutomountWatcher) (obs : List Bool) :
    List (List Nat) :=
  self.runFrom false obs

lemma step_fst (self : AutomountWatcher) (mounted ex : Bool) :
    (self.step mounted ex).1 = ex := by
  cases ex <;> simp [AutomountWatcher.step]

lemma runFrom_getD (self : AutomountWatcher) (m : Bool) (obs : List Bool)
    (i : Nat) (h : i < obs.length) :
    (self.runFrom m obs).getD i [] =
      (if obs.getD i false && !(if i = 0 then m else obs.getD (i - 1) false)
        then self.mount_handlers
        else if !(obs.getD i false) && (if i = 0 then m else obs.getD (i - 1) false)
        then self.unmount_handlers
        else []) := by
  induction obs generalizing m i with
  | nil => simp at h
  | cons ex rest ih =>
    cases i with
    | zero =>
      cases ex <;> cases m <;> simp [AutomountWatcher.runFrom, AutomountWatcher.step]
    | succ j =>
      have hj : j < rest.length := Nat.lt_of_succ_lt_succ (by simpa using h)
      have hih := ih ex j hj
      simp only [AutomountWatcher.runFrom, List.getD_cons_succ, step_fst]
      rw [hih]
      cases j with
      | zero => simp
      | succ k => simp

/-- C2: edge-triggered mount watching. At every step `i` of the polling loop
(started in the unmounted state), the handlers fired are exactly the full
mount-handler list, in registration order, when the path is observed present
after being observed absent (or at the very first observation); exactly the
full unmount-handler list when observed absent after present; and none when
the observation equals the previous one. -/
theorem automount_edge_triggered (w : AutomountWatcher) (obs : List Bool)
    (i : Nat) (h : i < obs.length) :
    (w.run obs).getD i [] =
      (if obs.getD i false && !(if i = 0 then false else obs.getD (i - 1) false)
        then w.mount_handlers
        else if !(obs.getD i false) && (if i = 0 then false else obs.getD (i - 1) false)
        then w.unmount_handlers
        else []) :=
  runFrom_getD w false obs i h

/-- Witness for `automount_edge_triggered`: on the trace present, present,
absent, the third step fires exactly the unmount handlers. -/
theorem automount_edge_triggered_witness :
    2 < [true, true, false].length
      ∧ (AutomountWatcher.run ⟨[1, 2], [3]⟩ [true, true, false]).getD 2 [] = [3] := by
  refine ⟨by decide, ?_⟩
  exact (automount_edge_triggered ⟨[1, 2], [3]⟩ [true, true, false] 2
    (by decide)).trans (by decide)

/-- C6 counterexample: a present but malformed (non-boolean) value does NOT
fall back to the per-field default — `fromdict({"igc": 0})` stores the integer
`0` in `igc`, whereas the default for `igc` is `True`. -/
theorem fromdict_malformed_not_default :
    (DownloadFilter.fromdict [("igc", PyVal.pyint 0)]).igc ≠ PyVal.pybool true
      ∧ (DownloadFilter.fromdict [("igc", PyVal.pyint 0)]).igc = PyVal.pyint 0 := by
  exact ⟨by decide, by decide⟩

/-- C7: round-trip — deserializing the serialized mapping of any filter `f`
yields `f` again (as its image `toPy` in the dynamically-typed field
representation, which is how Python dataclass equality compares it). -/
theorem fromdict_asdict_roundtrip (f : DownloadFilter) :
    DownloadFilter.fromdict f.asdict = f.toPy := by
  cases f with
  | mk n i m => cases n <;> cases i <;> cases m <;> rfl

/-- Witness for `list_logs_downloaded_false_and_new_irrelevant` at a concrete
catalog and directory: toggling `new` on the stored filter leaves the result
unchanged. -/
theorem list_logs_new_irrelevant_witness :
    (Downloader.mk ["h"] ["u"] (DownloadFilter.mk true true false)).list_logs
        (DownloadFilter.mk true true false)
        (Option.some [Entry.mk "a.igc" 1 5]) =
      (Downloader.mk ["h"] ["u"] (DownloadFilter.mk false true false)).list_logs
        (DownloadFilter.mk true true false)
        (Option.some [Entry.mk "a.igc" 1 5]) := by
  exact (list_logs_downloaded_false_and_new_irrelevant
    (Downloader.mk ["h"] ["u"] (DownloadFilter.mk true true false))
    (DownloadFilter.mk true true false)
    (Option.some [Entry.mk "a.igc" 1 5])).2
